import Mathlib

/-!
Shallow embedding of the repository client helper module (`gh_utils.py`):
error-payload classification, content fetching, recursive file enumeration,
ref resolution, and the idempotent create/update/push operations.

Remote (hosting-platform) behavior is modelled by explicit parameters or
by small state structures: the remote call that a Python function issues
becomes either a function argument carrying the call's outcome, or a pure
function over a state value, so that every code path of the Python source
is a visible branch of the Lean definition.

Python exceptions are modelled with `Option`/`Except`: a `raise` (including
the bare re-raise used by the checker helpers) becomes `none` or
`.error e` carrying the propagated exception.
-/

namespace GhUtils

/-- A single-quote character, built numerically so string literals in this
file can carry Python's quoted error messages verbatim. -/
def sq : String := String.singleton (Char.ofNat 39)

/-- Predicate `hasPre pat s` is true when `pat` is an initial run of `s`
(character lists). -/
def hasPre : List Char → List Char → Bool
  | [], _ => true
  | _ :: _, [] => false
  | p :: ps, c :: cs => p == c && hasPre ps cs

/-- Predicate `containsAt pat s`: `pat` occurs as a contiguous run somewhere in `s`.
Models Python's `pat in s` substring test on strings. -/
def containsAt (pat : List Char) : List Char → Bool
  | [] => pat.isEmpty
  | s@(_ :: rest) => hasPre pat s || containsAt pat rest

/-- Python's `pat in msg` for strings: substring containment. -/
def strIn (pat msg : String) : Bool :=
  containsAt pat.toList msg.toList

/-- The error payload shapes the remote API produces
(`GhError = Union[str, List, Dict]` in the source): a bare string, a
structured error (dict, modelled as an association list of string fields),
or a list of payloads. -/
inductive GhError where
  | str (s : String)
  | dict (fields : List (String × String))
  | list (items : List GhError)

/-- Source `_find_error_from_response`: a list with more than one entry raises
(`none`); a list with exactly one entry unwraps it (an empty list raises
too, via the out-of-range index); a non-list payload passes through. -/
def find_error_from_response : GhError → Option GhError
  | .list items => if 1 < items.length then none else items.head?
  | e => some e

/-- Source `_find_message_from_error`: a dict yields its "message" field (a
missing field raises, hence `Option`), a string is used directly, any
other shape raises. -/
def find_message_from_error : GhError → Option String
  | .dict fields => List.lookup "message" fields
  | .str s => some s
  | .list _ => none

/-- Source `_check_already_exists`: unwrap the payload, extract its message, and
raise (`none`) unless the expected pattern occurs in the message.
`some ()` is the silent return. -/
def check_already_exists (error : GhError) (expected_pattern : String) : Option Unit := do
  let err ← find_error_from_response error
  let message ← find_message_from_error err
  if strIn expected_pattern message then some () else none

/-- The default `expected_pattern` of `_check_already_exists`. -/
def already_exist_pattern : String := "already exist"

/-- A `GithubException` as the checkers see it: an HTTP status and an
error payload (`exc.data`). -/
structure GithubExc where
  status : Nat
  data : GhError

/-- Source `_check_status`: a bare re-raise (`none`) when the status differs from
the expected one, silent return otherwise. -/
def check_status (exc : GithubExc) (expected_status : Nat) : Option Unit :=
  if exc.status != expected_status then none else some ()

/-- A Python exception as the helper module distinguishes them: a
`TypeError` carrying its first argument, a `GithubException`, or any other
exception. -/
inductive PyExc where
  | typeError (msg : String)
  | githubExc (exc : GithubExc)
  | otherExc (msg : String)

/-- A remote content entry: its `type` ("file" or "dir"), full `path`,
decoded byte content and blob sha. -/
structure ContentFile where
  type : String
  path : String
  decoded_content : List Nat
  sha : String
deriving DecidableEq

/-- The `OptionalContents` shape minus the absent case: a lone entry
(file path) or an ordered list of entries (directory path). -/
inductive Contents where
  | single (c : ContentFile)
  | many (cs : List ContentFile)
deriving DecidableEq

/-- The slash character. -/
def slashChar : Char := Char.ofNat 47

/-- Python's `path.rstrip(slash)`: remove every trailing `/`. -/
def rstripSlash (s : String) : String :=
  String.mk ((s.toList.reverse.dropWhile (fun c => c == '/')).reverse)

/-- The exact `TypeError` message the underlying client raises when the
requested path is absent (iterating over a `None` response). -/
def noneIterableMsg : String :=
  "argument of type " ++ sq ++ "NoneType" ++ sq ++ " is not iterable"

/-- Source `get_contents`: strip trailing slashes, issue the remote request
(`rawGet`, the outcome of `repo.get_contents` at the stripped path and
ref), translate the one specific absent-path `TypeError` into `none`, and
propagate every other exception unchanged. -/
def get_contents (rawGet : String → String → Except PyExc Contents)
    (path ref : String) : Except PyExc (Option Contents) :=
  match rawGet (rstripSlash path) ref with
  | .ok c => .ok (some c)
  | .error (.typeError m) =>
      if m = noneIterableMsg then .ok none else .error (.typeError m)
  | .error e => .error e

/-- Source `read_content`: a contract error (`TypeError`) when the entry is not a
file, otherwise the raw decoded bytes. The error branch never touches the
content field, so no network fetch of the body happens there. -/
def read_content (content : ContentFile) : Except PyExc (List Nat) :=
  if content.type != "file" then
    .error (.typeError ("ContentFile.type must be " ++ sq ++ "file" ++ sq ++
      " to be read, not " ++ sq ++ content.type ++ sq))
  else
    .ok content.decoded_content

/-- A commit reference carrying a sha (`match.commit.sha` in the source). -/
structure CommitRef where
  sha : String
deriving DecidableEq

/-- A named object resolving to a commit: the shape shared by branches and
tags (`Shaable = Union[Branch, Tag]`). -/
structure Shaable where
  name : String
  commit : CommitRef
deriving DecidableEq

/-- The inner `find_match` of `get_tag_sha`: first element of the ordered
list whose name equals the requested one. -/
def find_match (tag : String) (xs : List Shaable) : Option Shaable :=
  xs.find? (fun x => x.name == tag)

/-- Source `get_tag_sha`: search branches first, then tags only when no branch
matched; no match raises `ValueError`. -/
def get_tag_sha (branches tags : List Shaable) (tag : String) :
    Except String String :=
  match
    (match find_match tag branches with
     | some m => some m
     | none => find_match tag tags) with
  | none => .error "No Tag or Branch exists with that name"
  | some m => .ok m.commit.sha

/-! ### Recursive file enumeration

The remote repository's content tree is modelled explicitly: a node is a
file (with its bytes) or a directory holding an ordered list of named
children. `get_contents` on a path resolving to a node returns a lone
entry for a file and the rendered child listing for a directory; the
recursive call of `iter_content_files` on a child directory's path
resolves to exactly that child node, so the path-based recursion of the
source becomes structural recursion over the tree. -/

mutual

inductive GhNode where
  | file (data : List Nat)
  | dir (children : GhEntries)

inductive GhEntries where
  | nil
  | cons (name : String) (node : GhNode) (rest : GhEntries)

end

/-- The `type` attribute a node's content entry carries. -/
def nodeType : GhNode → String
  | .file _ => "file"
  | .dir _ => "dir"

/-- The decoded content a node's entry carries (empty for directories). -/
def nodeContent : GhNode → List Nat
  | .file d => d
  | .dir _ => []

/-- Full path of a child entry under its parent path. -/
def childPath (p name : String) : String := p ++ "/" ++ name

/-- The content entry rendered for the node resolved at path `p`. -/
def renderEntry (p : String) (n : GhNode) : ContentFile :=
  ⟨nodeType n, p, nodeContent n, ""⟩

/-- The child listing `get_contents` returns for a directory at path `p`. -/
def renderEntries (p : String) : GhEntries → List ContentFile
  | .nil => []
  | .cons name node rest => renderEntry (childPath p name) node :: renderEntries p rest

/-- What `get_contents` returns for a path resolving to node `n` at `p`:
a lone entry for a file, the child listing for a directory. -/
def get_contents_node (p : String) : GhNode → Contents
  | .file d => .single (renderEntry p (.file d))
  | .dir cs => .many (renderEntries p cs)

/-- Source `_ensure_contents`: an iterable is kept as is, `None` becomes the
empty listing, a lone entry is wrapped in a singleton list. -/
def ensure_contents : Option Contents → List ContentFile
  | some (.many cs) => cs
  | none => []
  | some (.single c) => [c]

mutual

/-- Source `iter_content_files` on a path resolving to node `n` at path `p`:
fetch and normalize the contents, then for each entry recurse when its
type is "dir" and yield it otherwise. A file node's contents are the
normalized lone entry, which is yielded since its type is not "dir". -/
def iterNode (p : String) : GhNode → List ContentFile
  | .file d => ensure_contents (some (get_contents_node p (.file d)))
  | .dir cs => iterEntries p cs

/-- The loop body of `iter_content_files` over a directory's listing:
each rendered entry is recursed into (type "dir") or yielded. -/
def iterEntries (p : String) : GhEntries → List ContentFile
  | .nil => []
  | .cons name node rest =>
      (if (renderEntry (childPath p name) node).type == "dir" then
        iterNode (childPath p name) node
      else
        [renderEntry (childPath p name) node]) ++ iterEntries p rest

end

/-- Source `iter_content_files` at the root: an absent path gives the normalized
empty listing (no yields); a resolved node is traversed. -/
def iter_content_files (root : Option GhNode) (path : String) : List ContentFile :=
  match root with
  | none => ensure_contents none
  | some node => iterNode path node

mutual

/-- Number of file nodes in a tree. -/
def countFiles : GhNode → Nat
  | .file _ => 1
  | .dir cs => countFilesE cs

def countFilesE : GhEntries → Nat
  | .nil => 0
  | .cons _ node rest => countFiles node + countFilesE rest

end

mutual

/-- Number of directory nodes in a tree (the root directory included). -/
def countDirs : GhNode → Nat
  | .file _ => 0
  | .dir cs => 1 + countDirsE cs

def countDirsE : GhEntries → Nat
  | .nil => 0
  | .cons _ node rest => countDirs node + countDirsE rest

end

/-! ### Create-or-update file, branch creation, commit-and-push

Remote calls are abstracted as arguments holding their outcome, and the
mutable ref store as an explicit association list threaded through. -/

/-- Source `_one`: first element when the object is a sequence (an empty sequence
raises the out-of-range index), the object itself otherwise. -/
def one : Contents → Option ContentFile
  | .single c => some c
  | .many cs => cs.head?

/-- The message pattern `update_file` hands to `_check_already_exists`:
`"sha" wasn't supplied`. -/
def sha_pattern : String := "\"sha\" wasn" ++ sq ++ "t supplied"

/-- Source `update_file`: attempt the unconditional create (`createRes` is the
outcome of `repo.create_file`); on a `GithubException`, re-raise unless
the status is 422 and the payload's message indicates the missing-sha
conflict, then re-fetch the existing entry (`fetchRes`, the result of
`repo.get_contents(file_path, ref=branch)`) and issue the update carrying
its current sha (`updateCall path sha` is the outcome of
`repo.update_file(path, sha=sha, ...)`). -/
def update_file {α : Type} (createRes : Except GithubExc α)
    (fetchRes : Contents) (updateCall : String → String → α) :
    Except PyExc α :=
  match createRes with
  | .ok r => .ok r
  | .error exc =>
    match check_status exc 422 with
    | none => .error (.githubExc exc)
    | some _ =>
      match check_already_exists exc.data sha_pattern with
      | none => .error (.githubExc exc)
      | some _ =>
        match one fetchRes with
        | none => .error (.otherExc "IndexError: list index out of range")
        | some to_update => .ok (updateCall to_update.path to_update.sha)

/-- A git reference: its name and the sha it points at. -/
structure GitRef where
  ref : String
  sha : String
deriving DecidableEq

/-- First value stored under key `k` in an association list. -/
def lookupKey {α : Type} (k : String) : List (String × α) → Option α
  | [] => none
  | e :: rest => if e.1 = k then some e.2 else lookupKey k rest

/-- Source `create_branch`: attempt to create `refs/heads/<branch_name>` at the
source branch's sha (`createRes` is that call's outcome, its state effect
included); on a `GithubException`, re-raise unless the status is 422 and
the payload's message says the ref already exists, then return the
existing ref — `repo.get_git_ref('heads/' + b)` reads the ref stored as
`refs/heads/<b>` — leaving the store `refs` untouched. -/
def create_branch (createRes : Except GithubExc (GitRef × List (String × String)))
    (refs : List (String × String)) (branch_name : String) :
    Except PyExc (GitRef × List (String × String)) :=
  match createRes with
  | .ok res => .ok res
  | .error exc =>
    match check_status exc 422 with
    | none => .error (.githubExc exc)
    | some _ =>
      match check_already_exists exc.data already_exist_pattern with
      | none => .error (.githubExc exc)
      | some _ =>
        match lookupKey ("refs/heads/" ++ branch_name) refs with
        | some s => .ok (⟨"refs/heads/" ++ branch_name, s⟩, refs)
        | none => .error (.otherExc "UnknownObjectException")

/-- A staged change descriptor (`InputGitTreeElement`). -/
structure InputGitTreeElement where
  path : String
  mode : String
  type : String
  sha : String
deriving DecidableEq

/-- Remove every binding of key `k`. -/
def removeKey {α : Type} (k : String) : List (String × α) → List (String × α)
  | [] => []
  | e :: rest => if e.1 = k then removeKey k rest else e :: removeKey k rest

/-- Store `v` under `k`, replacing any previous binding. -/
def setKey {α : Type} (m : List (String × α)) (k : String) (v : α) :
    List (String × α) :=
  (k, v) :: removeKey k m

/-- Remote semantics of `repo.create_git_tree(changes, base_tree)`: the
staged changes are layered left to right onto the base tree, a flat map
from path to blob sha — same-path entries overwrite, unspecified paths
are inherited unchanged. -/
def create_git_tree (changes : List InputGitTreeElement)
    (base : List (String × String)) : List (String × String) :=
  changes.foldl (fun t c => setKey t c.path c.sha) base

/-- The staged change that wins at path `p`: the last one in the list
targeting `p`. -/
def lastChangeAt (changes : List InputGitTreeElement) (p : String) :
    Option InputGitTreeElement :=
  changes.reverse.find? (fun c => c.path == p)

/-- A git commit object: sha, message, its (flattened) tree, parent shas. -/
structure GitCommitM where
  sha : String
  message : String
  tree : List (String × String)
  parents : List String
deriving DecidableEq

/-- Source `push_changes` over a branch-head store: read the branch's head commit
and its tree, create the layered tree, create a commit with that tree and
the head as sole parent (`new_sha` is the sha the remote assigns), then
move the branch ref to the new commit and return it. -/
def push_changes (heads : List (String × GitCommitM))
    (changes : List InputGitTreeElement) (message branch new_sha : String) :
    Except PyExc (GitCommitM × List (String × GitCommitM)) :=
  match lookupKey branch heads with
  | none => .error (.githubExc ⟨404, .str "Branch not found"⟩)
  | some head =>
    let head_tree := head.tree
    let tree := create_git_tree changes head_tree
    let commit : GitCommitM := ⟨new_sha, message, tree, [head.sha]⟩
    .ok (commit, setKey heads branch commit)

/-! ### Theorems -/

/-- Claim C1: the already-exists classifier fails on a list of more than
one entry regardless of contents; a single-entry list unwraps that entry;
the message comes from the "message" field of a dict, from the value
itself for a string, and extraction fails on any other shape; a message
not containing the expected pattern re-raises (fails), a matching message
returns silently. -/
theorem claim_C1_check_already_exists :
    (∀ (items : List GhError) (pat : String), 1 < items.length →
      check_already_exists (.list items) pat = none) ∧
    (∀ e : GhError, find_error_from_response (.list [e]) = some e) ∧
    (∀ fields : List (String × String),
      find_message_from_error (.dict fields) = List.lookup "message" fields) ∧
    (∀ s : String, find_message_from_error (.str s) = some s) ∧
    (∀ l : List GhError, find_message_from_error (.list l) = none) ∧
    (∀ s pat : String, strIn pat s = false →
      check_already_exists (.str s) pat = none) ∧
    (∀ s pat : String, strIn pat s = true →
      check_already_exists (.str s) pat = some ()) ∧
    (∀ (fields : List (String × String)) (m pat : String),
      List.lookup "message" fields = some m → strIn pat m = true →
      check_already_exists (.dict fields) pat = some ()) := by
  refine ⟨?_, ?_, ?_, ?_, ?_, ?_, ?_, ?_⟩
  · intro items pat h
    simp [check_already_exists, find_error_from_response, h]
  · intro e
    simp [find_error_from_response]
  · intro fields
    rfl
  · intro s
    rfl
  · intro l
    rfl
  · intro s pat h
    simp [check_already_exists, find_error_from_response, find_message_from_error, h]
  · intro s pat h
    simp [check_already_exists, find_error_from_response, find_message_from_error, h]
  · intro fields m pat hm h
    simp [check_already_exists, find_error_from_response, find_message_from_error, hm, h]

/-- Witness for C1 at concrete payloads: a two-element list fails even
with matching messages, a lone entry unwraps, a non-matching string
re-raises, and the dict with message "ref already exists" passes. -/
theorem claim_C1_witness :
    check_already_exists (.list [.str "ref already exists", .str "ref already exists"])
      already_exist_pattern = none ∧
    find_error_from_response (.list [.str "ref already exists"]) =
      some (.str "ref already exists") ∧
    check_already_exists (.str "Not Found") already_exist_pattern = none ∧
    check_already_exists (.dict [("message", "ref already exists")])
      already_exist_pattern = some () :=
  ⟨claim_C1_check_already_exists.1 _ _ (by decide),
   claim_C1_check_already_exists.2.1 _,
   claim_C1_check_already_exists.2.2.2.2.2.1 _ _ (by decide),
   claim_C1_check_already_exists.2.2.2.2.2.2.2 _ "ref already exists" _
     (by decide) (by decide)⟩

/-- Claim C2: when the remote call at the (stripped) path raises the one
`TypeError` whose message is "argument of type 'NoneType' is not
iterable" — the absent-path signature — `get_contents` returns the absent
value `none`; a `TypeError` with any other message, and any other
exception, propagate unchanged. -/
theorem claim_C2_get_contents (rawGet : String → String → Except PyExc Contents)
    (path ref : String) :
    (rawGet (rstripSlash path) ref = .error (.typeError noneIterableMsg) →
      get_contents rawGet path ref = .ok none) ∧
    (∀ m : String, m ≠ noneIterableMsg →
      rawGet (rstripSlash path) ref = .error (.typeError m) →
      get_contents rawGet path ref = .error (.typeError m)) ∧
    (∀ exc : GithubExc,
      rawGet (rstripSlash path) ref = .error (.githubExc exc) →
      get_contents rawGet path ref = .error (.githubExc exc)) ∧
    (∀ m : String,
      rawGet (rstripSlash path) ref = .error (.otherExc m) →
      get_contents rawGet path ref = .error (.otherExc m)) := by
  refine ⟨?_, ?_, ?_, ?_⟩
  · intro h
    simp [get_contents, h]
  · intro m hm h
    simp [get_contents, h, hm]
  · intro exc h
    simp [get_contents, h]
  · intro m h
    simp [get_contents, h]

/-- Witness for C2: a remote that raises the absent-path `TypeError` is
translated to `none`; one raising a different `TypeError` and one raising
a `GithubException` propagate. -/
theorem claim_C2_witness :
    get_contents (fun _ _ => .error (.typeError noneIterableMsg)) "some/path" "main" =
      .ok none ∧
    get_contents (fun _ _ => .error (.typeError "other message")) "some/path" "main" =
      .error (.typeError "other message") ∧
    get_contents (fun _ _ => .error (.githubExc ⟨404, .str "Not Found"⟩)) "some/path" "main" =
      .error (.githubExc ⟨404, .str "Not Found"⟩) :=
  ⟨(claim_C2_get_contents _ "some/path" "main").1 rfl,
   (claim_C2_get_contents _ "some/path" "main").2.1 "other message" (by decide) rfl,
   (claim_C2_get_contents _ "some/path" "main").2.2.1 ⟨404, .str "Not Found"⟩ rfl⟩

/-- Dropping a leading block of characters satisfying the predicate. -/
theorem dropWhile_replicate_append {α : Type} (p : α → Bool) (c : α)
    (hc : p c = true) (k : Nat) (t : List α) :
    List.dropWhile p (List.replicate k c ++ t) = List.dropWhile p t := by
  induction k with
  | zero => rfl
  | succ n ih => simp [List.replicate_succ, List.dropWhile, hc, ih]

/-- Appending trailing slashes does not change the stripped path. -/
theorem rstripSlash_append_slashes (p : String) (k : Nat) :
    rstripSlash (p ++ String.mk (List.replicate k slashChar)) =
      rstripSlash p := by
  have h47 : (slashChar == '/') = true := by decide
  simp only [rstripSlash, String.toList, String.data_append, List.reverse_append,
    List.reverse_replicate, dropWhile_replicate_append (fun c => c == '/') slashChar h47]

/-- Claim C9: `get_contents` strips every trailing slash before issuing
the remote request, so a path with any number of trailing slashes
appended addresses the same remote content as the bare path. -/
theorem claim_C9_trailing_slashes (rawGet : String → String → Except PyExc Contents)
    (p ref : String) (k : Nat) :
    rstripSlash (p ++ String.mk (List.replicate k slashChar)) = rstripSlash p ∧
    get_contents rawGet (p ++ String.mk (List.replicate k slashChar)) ref =
      get_contents rawGet p ref := by
  refine ⟨rstripSlash_append_slashes p k, ?_⟩
  simp [get_contents, rstripSlash_append_slashes p k]

/-- Claim C8: `read_content` on an entry whose type is not "file" raises
the type-mismatch `TypeError`; the result never depends on the entry's
body (no fetch of the content happens); on a "file" entry it returns the
raw decoded bytes. -/
theorem claim_C8_read_content (t p : String) (b : List Nat) (s : String) :
    (t ≠ "file" →
      read_content ⟨t, p, b, s⟩ =
        .error (.typeError ("ContentFile.type must be " ++ sq ++ "file" ++ sq ++
          " to be read, not " ++ sq ++ t ++ sq)) ∧
      ∀ (p' : String) (b' : List Nat) (s' : String),
        read_content ⟨t, p, b, s⟩ = read_content ⟨t, p', b', s'⟩) ∧
    read_content ⟨"file", p, b, s⟩ = .ok b := by
  constructor
  · intro h
    constructor
    · simp [read_content, h]
    · intro p' b' s'
      simp [read_content, h]
  · rfl

/-- Witness for C8: reading a "dir" entry fails with the `TypeError`
regardless of its body, reading a "file" entry yields its bytes. -/
theorem claim_C8_witness :
    read_content ⟨"dir", "a", [1, 2], "s"⟩ =
      .error (.typeError ("ContentFile.type must be " ++ sq ++ "file" ++ sq ++
        " to be read, not " ++ sq ++ "dir" ++ sq)) ∧
    read_content ⟨"dir", "a", [1, 2], "s"⟩ = read_content ⟨"dir", "b", [], ""⟩ ∧
    read_content ⟨"file", "a", [1, 2], "s"⟩ = .ok [1, 2] :=
  ⟨((claim_C8_read_content "dir" "a" [1, 2] "s").1 (by decide)).1,
   ((claim_C8_read_content "dir" "a" [1, 2] "s").1 (by decide)).2 "b" [] "",
   (claim_C8_read_content "dir" "a" [1, 2] "s").2⟩

/-- Claim C4: `get_tag_sha` searches branches first by exact name and
consults tags only when no branch matched, so a branch shadows a
same-named tag; when neither exists the `ValueError` is raised. -/
theorem claim_C4_get_tag_sha (branches tags : List Shaable) (tag : String) :
    (∀ b : Shaable, find_match tag branches = some b →
      get_tag_sha branches tags tag = .ok b.commit.sha) ∧
    (find_match tag branches = none →
      ∀ t : Shaable, find_match tag tags = some t →
        get_tag_sha branches tags tag = .ok t.commit.sha) ∧
    (find_match tag branches = none → find_match tag tags = none →
      get_tag_sha branches tags tag =
        .error "No Tag or Branch exists with that name") := by
  refine ⟨?_, ?_, ?_⟩
  · intro b hb
    simp [get_tag_sha, hb]
  · intro hb t ht
    simp [get_tag_sha, hb, ht]
  · intro hb ht
    simp [get_tag_sha, hb, ht]

/-- Witness for C4: with both a branch "x" and a tag "x", resolution
returns the branch's commit sha; with neither, it raises. -/
theorem claim_C4_witness :
    get_tag_sha [⟨"x", ⟨"branch-sha"⟩⟩] [⟨"x", ⟨"tag-sha"⟩⟩] "x" = .ok "branch-sha" ∧
    get_tag_sha [⟨"y", ⟨"b"⟩⟩] [⟨"z", ⟨"t"⟩⟩] "x" =
      .error "No Tag or Branch exists with that name" :=
  ⟨(claim_C4_get_tag_sha [⟨"x", ⟨"branch-sha"⟩⟩] [⟨"x", ⟨"tag-sha"⟩⟩] "x").1
      ⟨"x", ⟨"branch-sha"⟩⟩ rfl,
   (claim_C4_get_tag_sha [⟨"y", ⟨"b"⟩⟩] [⟨"z", ⟨"t"⟩⟩] "x").2.2 rfl rfl⟩

/-- Claim C5: `update_file` first attempts the unconditional create; a
successful create is returned as is; a rejection that is not status 422,
or is a 422 whose message does not match the missing-sha pattern,
propagates; exactly the 422 rejection with the matching message leads to
re-fetching the existing entry and issuing the update carrying its
current sha, so the call does not raise on an existing path. -/
theorem claim_C5_update_file {α : Type} (createRes : Except GithubExc α)
    (fetchRes : Contents) (updateCall : String → String → α) :
    (∀ r : α, createRes = .ok r →
      update_file createRes fetchRes updateCall = .ok r) ∧
    (∀ exc : GithubExc, createRes = .error exc → exc.status ≠ 422 →
      update_file createRes fetchRes updateCall = .error (.githubExc exc)) ∧
    (∀ exc : GithubExc, createRes = .error exc → exc.status = 422 →
      check_already_exists exc.data sha_pattern = none →
      update_file createRes fetchRes updateCall = .error (.githubExc exc)) ∧
    (∀ (exc : GithubExc) (u : ContentFile), createRes = .error exc →
      exc.status = 422 →
      check_already_exists exc.data sha_pattern = some () →
      one fetchRes = some u →
      update_file createRes fetchRes updateCall =
        .ok (updateCall u.path u.sha)) := by
  refine ⟨?_, ?_, ?_, ?_⟩
  · intro r h
    simp [update_file, h]
  · intro exc h hs
    simp [update_file, check_status, h, hs]
  · intro exc h hs hc
    simp [update_file, check_status, h, hs, hc]
  · intro exc u h hs hc hu
    simp [update_file, check_status, h, hs, hc, hu]

/-- Witness for C5: a successful create passes through; a 404 rejection
and a 422 with a non-matching message propagate; the 422 with the
missing-sha message triggers the update carrying the fetched sha. -/
theorem claim_C5_witness :
    update_file (α := String) (.ok "created") (.many []) (fun p s => p ++ s) =
      .ok "created" ∧
    update_file (α := String) (.error ⟨404, .str "Not Found"⟩)
      (.many []) (fun p s => p ++ s) =
      .error (.githubExc ⟨404, .str "Not Found"⟩) ∧
    update_file (α := String) (.error ⟨422, .dict [("message", "Validation Failed")]⟩)
      (.many []) (fun p s => p ++ s) =
      .error (.githubExc ⟨422, .dict [("message", "Validation Failed")]⟩) ∧
    update_file (α := String)
      (.error ⟨422, .dict [("message", "Invalid request." ++
        " " ++ "\"sha\" wasn" ++ sq ++ "t supplied.")]⟩)
      (.single ⟨"file", "a/b.txt", [], "oldsha"⟩)
      (fun p s => p ++ ":" ++ s) =
      .ok "a/b.txt:oldsha" :=
  ⟨(claim_C5_update_file _ _ _).1 "created" rfl,
   (claim_C5_update_file _ _ _).2.1 ⟨404, .str "Not Found"⟩ rfl (by decide),
   (claim_C5_update_file _ _ _).2.2.1 ⟨422, .dict [("message", "Validation Failed")]⟩
     rfl rfl (by decide),
   (claim_C5_update_file _ _ _).2.2.2 _ ⟨"file", "a/b.txt", [], "oldsha"⟩
     rfl rfl (by decide) rfl⟩

/-- Claim C6: `create_branch` on a name that already exists does not
raise: on a 422 rejection whose message indicates the ref already exists,
it returns the existing ref with its stored sha and leaves the ref store
untouched; a rejection with any other status, or a 422 with a
non-matching message, is fatal. -/
theorem claim_C6_create_branch
    (createRes : Except GithubExc (GitRef × List (String × String)))
    (refs : List (String × String)) (branch_name : String) :
    (∀ (exc : GithubExc) (s : String), createRes = .error exc →
      exc.status = 422 →
      check_already_exists exc.data already_exist_pattern = some () →
      lookupKey ("refs/heads/" ++ branch_name) refs = some s →
      create_branch createRes refs branch_name =
        .ok (⟨"refs/heads/" ++ branch_name, s⟩, refs)) ∧
    (∀ exc : GithubExc, createRes = .error exc → exc.status ≠ 422 →
      create_branch createRes refs branch_name = .error (.githubExc exc)) ∧
    (∀ exc : GithubExc, createRes = .error exc → exc.status = 422 →
      check_already_exists exc.data already_exist_pattern = none →
      create_branch createRes refs branch_name = .error (.githubExc exc)) := by
  refine ⟨?_, ?_, ?_⟩
  · intro exc s h hs hc hl
    simp [create_branch, check_status, h, hs, hc, hl]
  · intro exc h hs
    simp [create_branch, check_status, h, hs]
  · intro exc h hs hc
    simp [create_branch, check_status, h, hs, hc]

/-- Witness for C6: the 422 "Reference already exists" rejection yields
the stored ref at its stored sha with the store unchanged (the sha is not
moved even though the source branch points elsewhere), while a 403
rejection and a 422 with another message are fatal. -/
theorem claim_C6_witness :
    create_branch (.error ⟨422, .dict [("message", "Reference already exists")]⟩)
      [("refs/heads/feature", "oldsha")] "feature" =
      .ok (⟨"refs/heads/feature", "oldsha"⟩, [("refs/heads/feature", "oldsha")]) ∧
    create_branch (.error ⟨403, .str "Forbidden"⟩)
      [("refs/heads/feature", "oldsha")] "feature" =
      .error (.githubExc ⟨403, .str "Forbidden"⟩) ∧
    create_branch (.error ⟨422, .dict [("message", "Validation Failed")]⟩)
      [("refs/heads/feature", "oldsha")] "feature" =
      .error (.githubExc ⟨422, .dict [("message", "Validation Failed")]⟩) :=
  ⟨(claim_C6_create_branch _ _ "feature").1 ⟨422, .dict [("message", "Reference already exists")]⟩
     "oldsha" rfl rfl (by decide) rfl,
   (claim_C6_create_branch _ _ "feature").2.1 ⟨403, .str "Forbidden"⟩ rfl (by decide),
   (claim_C6_create_branch _ _ "feature").2.2 ⟨422, .dict [("message", "Validation Failed")]⟩
     rfl rfl (by decide)⟩

/-- Lookup skips entries removed for a different key. -/
theorem lookupKey_removeKey {α : Type} (m : List (String × α)) (k q : String)
    (hq : q ≠ k) :
    lookupKey q (removeKey k m) = lookupKey q m := by
  induction m with
  | nil => rfl
  | cons e rest ih =>
    simp only [removeKey, lookupKey]
    by_cases he : e.1 = k
    · have hkq : k ≠ q := fun h => hq h.symm
      simp [he, hkq, ih]
    · by_cases heq : e.1 = q
      · simp [he, heq, hq, lookupKey]
      · simp [he, heq, lookupKey, ih]

/-- Lookup after `setKey`: the new binding at the key, the old map
elsewhere. -/
theorem lookupKey_setKey {α : Type} (m : List (String × α)) (k q : String)
    (v : α) :
    lookupKey q (setKey m k v) = if q = k then some v else lookupKey q m := by
  by_cases h : q = k
  · simp [setKey, lookupKey, h]
  · have hk : k ≠ q := fun hkq => h hkq.symm
    simp only [setKey, lookupKey, hk, if_false, if_neg h]
    exact lookupKey_removeKey m k q h

/-- The layered tree looks up to the last staged change at a path, or to
the base tree when no change targets it. -/
theorem lookupKey_create_git_tree (changes : List InputGitTreeElement)
    (base : List (String × String)) (p : String) :
    lookupKey p (create_git_tree changes base) =
      (match lastChangeAt changes p with
       | some c => some c.sha
       | none => lookupKey p base) := by
  induction changes generalizing base with
  | nil => rfl
  | cons c cs ih =>
    have hfold : create_git_tree (c :: cs) base =
        create_git_tree cs (setKey base c.path c.sha) := rfl
    have hlast : lastChangeAt (c :: cs) p =
        (lastChangeAt cs p).or ([c].find? (fun d => d.path == p)) := by
      simp [lastChangeAt, List.reverse_cons, List.find?_append]
    rw [hfold, ih, hlast]
    cases hcs : lastChangeAt cs p with
    | some d => simp [Option.or]
    | none =>
      rw [lookupKey_setKey]
      by_cases hp : c.path = p
      · have hb : (c.path == p) = true := by simp [hp]
        simp [List.find?, hb, hp.symm, Option.or]
      · have hb : (c.path == p) = false := by simp [hp]
        have hps : ¬p = c.path := fun h => hp h.symm
        simp [List.find?, hb, hps, Option.or]

/-- Claim C7: with the branch resolving to a head commit, `push_changes`
creates the tree layering the staged changes over the head's tree
(same-path changes overwrite, untouched paths inherited), creates a
commit carrying that tree, the given message and the head as sole parent,
moves the branch ref to that commit, and returns it. -/
theorem claim_C7_push_changes (heads : List (String × GitCommitM))
    (changes : List InputGitTreeElement) (message branch new_sha : String)
    (head : GitCommitM) (h : lookupKey branch heads = some head) :
    push_changes heads changes message branch new_sha =
      .ok (⟨new_sha, message, create_git_tree changes head.tree, [head.sha]⟩,
        setKey heads branch
          ⟨new_sha, message, create_git_tree changes head.tree, [head.sha]⟩) ∧
    (∀ p : String,
      lookupKey p (create_git_tree changes head.tree) =
        (match lastChangeAt changes p with
         | some c => some c.sha
         | none => lookupKey p head.tree)) ∧
    lookupKey branch
      (setKey heads branch
        ⟨new_sha, message, create_git_tree changes head.tree, [head.sha]⟩) =
      some ⟨new_sha, message, create_git_tree changes head.tree, [head.sha]⟩ := by
  refine ⟨?_, ?_, ?_⟩
  · simp [push_changes, h]
  · intro p
    exact lookupKey_create_git_tree changes head.tree p
  · simp [lookupKey_setKey]

/-- Witness for C7: over a head whose tree holds `a` and `b`, staging a
change at `b` overwrites it, `a` is inherited, the commit's sole parent
is the head, and the branch ref now resolves to the new commit. -/
theorem claim_C7_witness :
    push_changes [("main", ⟨"h0", "init", [("a", "s1"), ("b", "s2")], []⟩)]
      [⟨"b", "100644", "blob", "s3"⟩] "msg" "main" "h1" =
      .ok (⟨"h1", "msg", [("b", "s3"), ("a", "s1")], ["h0"]⟩,
        [("main", ⟨"h1", "msg", [("b", "s3"), ("a", "s1")], ["h0"]⟩)]) ∧
    lookupKey "a" (create_git_tree [⟨"b", "100644", "blob", "s3"⟩]
      [("a", "s1"), ("b", "s2")]) = some "s1" ∧
    lookupKey "b" (create_git_tree [⟨"b", "100644", "blob", "s3"⟩]
      [("a", "s1"), ("b", "s2")]) = some "s3" ∧
    lookupKey "main"
      (setKey [("main", ⟨"h0", "init", [("a", "s1"), ("b", "s2")], []⟩)] "main"
        (⟨"h1", "msg", create_git_tree [⟨"b", "100644", "blob", "s3"⟩]
          [("a", "s1"), ("b", "s2")], ["h0"]⟩ : GitCommitM)) =
      some ⟨"h1", "msg", [("b", "s3"), ("a", "s1")], ["h0"]⟩ := by
  have h := claim_C7_push_changes
    [("main", ⟨"h0", "init", [("a", "s1"), ("b", "s2")], []⟩)]
    [⟨"b", "100644", "blob", "s3"⟩] "msg" "main" "h1"
    ⟨"h0", "init", [("a", "s1"), ("b", "s2")], []⟩ rfl
  refine ⟨h.1, ?_, ?_, h.2.2⟩
  · have := h.2.1 "a"
    simpa using this
  · have := h.2.1 "b"
    simpa using this

/-- Claim C10: `push_changes` with an empty change list is not rejected:
it still builds the layered tree — which equals the head's tree — creates
a commit content-identical to the head with the head as sole parent, and
moves the branch ref to that new commit. -/
theorem claim_C10_push_empty (heads : List (String × GitCommitM))
    (message branch new_sha : String) (head : GitCommitM)
    (h : lookupKey branch heads = some head) :
    create_git_tree [] head.tree = head.tree ∧
    push_changes heads [] message branch new_sha =
      .ok (⟨new_sha, message, head.tree, [head.sha]⟩,
        setKey heads branch ⟨new_sha, message, head.tree, [head.sha]⟩) ∧
    lookupKey branch
      (setKey heads branch ⟨new_sha, message, head.tree, [head.sha]⟩) =
      some ⟨new_sha, message, head.tree, [head.sha]⟩ := by
  refine ⟨rfl, ?_, ?_⟩
  · simp [push_changes, h, create_git_tree]
  · simp [lookupKey_setKey]

/-- Witness for C10: pushing no changes atop a concrete head yields a new
commit with the same tree, the head as sole parent, and the branch ref
moved to it. -/
theorem claim_C10_witness :
    push_changes [("main", ⟨"h0", "init", [("a", "s1")], []⟩)] [] "noop" "main" "h1" =
      .ok (⟨"h1", "noop", [("a", "s1")], ["h0"]⟩,
        [("main", ⟨"h1", "noop", [("a", "s1")], ["h0"]⟩)]) :=
  ((claim_C10_push_empty [("main", ⟨"h0", "init", [("a", "s1")], []⟩)]
    "noop" "main" "h1" ⟨"h0", "init", [("a", "s1")], []⟩ rfl).2).1

mutual

/-- Traversal of a node yields as many entries as the tree has files. -/
theorem iterNode_length (p : String) :
    (n : GhNode) → (iterNode p n).length = countFiles n
  | .file _ => rfl
  | .dir cs => by
      rw [iterNode, countFiles]
      exact iterEntries_length p cs

/-- Traversal of a listing yields as many entries as its trees have
files. -/
theorem iterEntries_length (p : String) :
    (es : GhEntries) → (iterEntries p es).length = countFilesE es
  | .nil => rfl
  | .cons name node rest => by
      cases node with
      | file d =>
          have h1 := iterEntries_length p rest
          rw [iterEntries, countFilesE]
          simp [renderEntry, nodeType, countFiles, h1, Nat.add_comm]
      | dir cs =>
          have h1 := iterEntries_length p rest
          have h2 := iterNode_length (childPath p name) (GhNode.dir cs)
          rw [iterEntries, countFilesE]
          simp [renderEntry, nodeType, countFiles, h1, h2]

end

mutual

/-- Every entry the traversal of a node yields has type "file". -/
theorem iterNode_types (p : String) :
    (n : GhNode) → ∀ c ∈ iterNode p n, c.type = "file"
  | .file d => by
      intro c hc
      rw [iterNode] at hc
      simp [ensure_contents, get_contents_node, renderEntry, nodeType] at hc
      rw [hc]
  | .dir cs => by
      rw [iterNode]
      exact iterEntries_types p cs

/-- Every entry the traversal of a listing yields has type "file". -/
theorem iterEntries_types (p : String) :
    (es : GhEntries) → ∀ c ∈ iterEntries p es, c.type = "file"
  | .nil => by
      intro c hc
      rw [iterEntries] at hc
      cases hc
  | .cons name node rest => by
      intro c hc
      rw [iterEntries] at hc
      rcases List.mem_append.mp hc with h | h
      · cases node with
        | file d =>
            simp [renderEntry, nodeType] at h
            rw [h]
        | dir cs =>
            simp only [renderEntry, nodeType, reduceIte] at h
            exact iterNode_types (childPath p name) (.dir cs) c h
      · exact iterEntries_types p rest c h

end

/-- Claim C3: traversing a tree with `N` files and `M` directories yields
exactly `N` entries, each of type "file" and directories never yielded;
an absent root yields no entries; a root that is itself a file yields
exactly one. -/
theorem claim_C3_iter_content_files :
    (∀ (node : GhNode) (p : String) (N M : Nat),
      countFiles node = N → countDirs node = M →
      (iter_content_files (some node) p).length = N ∧
      ∀ c ∈ iter_content_files (some node) p, c.type = "file") ∧
    (∀ p : String, iter_content_files none p = []) ∧
    (∀ (d : List Nat) (p : String),
      (iter_content_files (some (.file d)) p).length = 1) := by
  refine ⟨?_, fun p => rfl, fun d p => rfl⟩
  intro node p N M hN hM
  subst hN
  exact ⟨iterNode_length p node, iterNode_types p node⟩

/-- Witness for C3 on a concrete tree with two files and two directories,
on the absent root, and on a lone-file root. -/
theorem claim_C3_witness :
    (iter_content_files
      (some (.dir (.cons "f1" (.file [1])
        (.cons "d" (.dir (.cons "f2" (.file [2]) .nil)) .nil)))) "root").length = 2 ∧
    (∀ c ∈ iter_content_files
      (some (.dir (.cons "f1" (.file [1])
        (.cons "d" (.dir (.cons "f2" (.file [2]) .nil)) .nil)))) "root",
      c.type = "file") ∧
    iter_content_files none "root" = [] ∧
    (iter_content_files (some (.file [7])) "root").length = 1 :=
  ⟨(claim_C3_iter_content_files.1
      (.dir (.cons "f1" (.file [1])
        (.cons "d" (.dir (.cons "f2" (.file [2]) .nil)) .nil))) "root" 2 2 rfl rfl).1,
   (claim_C3_iter_content_files.1
      (.dir (.cons "f1" (.file [1])
        (.cons "d" (.dir (.cons "f2" (.file [2]) .nil)) .nil))) "root" 2 2 rfl rfl).2,
   claim_C3_iter_content_files.2.1 "root",
   claim_C3_iter_content_files.2.2 [7] "root"⟩

end GhUtils
